import Mathlib

/-
Shallow embedding of `src/binread_derive/src/meta_attrs/field_level_attrs.rs`:
resolution of field-level annotations into a `FieldLevelAttrs` descriptor.
Types defined outside that file (spans, the parsed attribute enum, errors)
are modelled from the spec, as noted on each definition.
-/

set_option autoImplicit false

namespace BinreadDerive

/-- Modelled from the spec: a span is an opaque source-location handle
(§3, §9 span-join algebra), here a source file identifier together with
start and end offsets.  The concrete span type is provided by the host
toolchain and is not part of the excerpt under `src/`. -/
structure Span where
  file : Nat
  lo : Nat
  hi : Nat
deriving DecidableEq, Repr

/-- Modelled from the spec: the partial `join` of two spans produces the
minimal covering span and is defined exactly when both spans come from the
same source file (the host API returns an optional result). -/
def Span.join (s t : Span) : Option Span :=
  if s.file = t.file then some ⟨s.file, min s.lo t.lo, max s.hi t.hi⟩ else none

/-- Modelled from the spec: a value paired with the span it was resolved
from (the `SpannedValue` type used for the `big`/`little` flags). -/
structure SpannedValue (α : Type) where
  value : α
  span : Span
deriving DecidableEq, Repr

/-- Modelled from the spec: annotation payloads are opaque deferred source
fragments (§9); token streams are represented by an abstract code. -/
abbrev TokenStream := Nat

/-- Modelled from the spec: a literal payload, likewise opaque here. -/
abbrev Lit := Nat

/-- Payload of one annotation occurrence: nothing (presence flags), an
opaque expression, a literal, or an argument list. -/
inductive Payload where
  | flag
  | expr (ts : TokenStream)
  | lit (l : Lit)
  | list (args : List TokenStream)
deriving DecidableEq, Repr

/-- The annotation kinds of the `FieldLevelAttr` enum produced by the
embedded grammar (one constructor per variant matched by `get_fla_type!`). -/
inductive FlaKind where
  | Big
  | Little
  | Default
  | Ignore
  | DerefNow
  | RestorePosition
  | PostProcessNow
  | Try
  | Temp
  | Map
  | ParseWith
  | Magic
  | Args
  | ArgsTuple
  | Assert
  | Calc
  | Count
  | IsLittle
  | IsBig
  | Offset
  | OffsetAfter
  | If
  | PadBefore
  | PadAfter
  | AlignBefore
  | AlignAfter
  | SeekBefore
  | PadSizeTo
deriving DecidableEq, Repr

/-- One parsed annotation occurrence: its kind, its payload (`get()` in the
source) and its span (`Spanned::span`).  The source represents this as one
enum variant per kind; the kind tag makes the per-variant extraction of
`get_fla_type!` a single filter. -/
structure FieldLevelAttr where
  kind : FlaKind
  payload : Payload
  span : Span
deriving DecidableEq, Repr

/-- Extraction of all occurrences of one kind, in input order: the
embedding of the `get_fla_type!` macro (a filter over the flattened list). -/
def get_fla_type (attrs : List FieldLevelAttr) (k : FlaKind) : List FieldLevelAttr :=
  attrs.filter (fun a => a.kind == k)

/-- The `PassedArgs` value of the descriptor: either an explicit ordered
argument list or a single tuple-style argument expression. -/
inductive PassedArgs where
  | List (args : Payload)
  | Tuple (arg : Payload)
deriving DecidableEq, Repr

/-- Assertion payloads are carried opaquely. -/
abbrev Assert := Payload

/-- The resolved field descriptor, with the same fields as the Rust
`FieldLevelAttrs` struct. -/
structure FieldLevelAttrs where
  args : PassedArgs
  map : Option Payload
  ignore : Bool
  default : Bool
  calc_ : Option Payload
  count : Option Payload
  offset : Option Payload
  offset_after : Option Payload
  if_cond : Option Payload
  deref_now : Bool
  postprocess_now : Bool
  restore_position : Bool
  do_try : Bool
  temp : Bool
  little : SpannedValue Bool
  big : SpannedValue Bool
  is_big : Option Payload
  is_little : Option Payload
  assert : List Assert
  magic : Option Payload
  pad_before : Option Payload
  pad_after : Option Payload
  align_before : Option Payload
  align_after : Option Payload
  seek_before : Option Payload
  pad_size_to : Option Payload
  parse_with : Option Payload
deriving DecidableEq, Repr

/-- Modelled from the spec: a diagnostic carrying a message and a span
(§6 diagnostics surface). -/
structure SpanError where
  span : Span
  message : String
deriving DecidableEq, Repr

/-- Modelled from the spec: the error taxonomy of §7 — `SpanError` for
conflict diagnostics built by this module, `Syn` for a parse diagnostic
propagated from the embedded grammar. -/
inductive CompileError where
  | SpanError (e : BinreadDerive.SpanError)
  | Syn (e : BinreadDerive.SpanError)
deriving DecidableEq, Repr

/-- Result of a resolution step: success, a compile error, or a Rust panic
(the `unwrap` calls on `Option` values in the source).  `panicked` is kept
distinct from `err` so that reachability of the unwrap branches can be
stated. -/
inductive FfResult (α : Type) where
  | ok (a : α)
  | err (e : CompileError)
  | panicked
deriving DecidableEq, Repr

def FfResult.bind {α β : Type} : FfResult α → (α → FfResult β) → FfResult β
  | .ok a, f => f a
  | .err e, _ => .err e
  | .panicked, _ => .panicked

instance : Monad FfResult where
  pure := FfResult.ok
  bind := FfResult.bind

/-- Left fold of `Span.join` over a list of spans in encounter order,
starting from the first element; `none` models the `unwrap` panic of the
source when some join is undefined, and also the `unwrap` of
`spans.next()` on an empty iterator. -/
def joinFold : List Span → Option Span
  | [] => none
  | first :: rest => rest.foldlM Span.join first

/-- Embedding of `get_only_first`: at most one occurrence may remain; two
or more produce a `SpanError` whose span is the left-fold join of all
occurrence spans (panicking if a join is undefined). -/
def get_only_first (list : List FieldLevelAttr) (msg : String) :
    FfResult (Option FieldLevelAttr) :=
  if list.length > 1 then
    match (list.map FieldLevelAttr.span) with
    | [] => FfResult.panicked
    | first :: rest =>
      match rest.foldlM Span.join first with
      | some span => FfResult.err (.SpanError ⟨span, msg⟩)
      | none => FfResult.panicked
  else
    FfResult.ok list.head?

/-- Embedding of `first_span_true`: a presence flag is true with the span
of the first occurrence when the group is non-empty, and defaulted
otherwise. -/
def first_span_true (vals : List FieldLevelAttr) : SpannedValue Bool :=
  match vals.head? with
  | some val => ⟨true, val.span⟩
  | none => ⟨false, ⟨0, 0, 0⟩⟩

/-- Embedding of the cross-group check of `from_field` (the early return
on lines 119-131): if both the `args` and the `args_tuple` groups are
non-empty, fail with a `SpanError` spanning every occurrence of both. -/
def check_args_conflict (args args_tuple : List FieldLevelAttr) : FfResult Unit :=
  if args.length > 0 && args_tuple.length > 0 then
    match ((args.map FieldLevelAttr.span) ++ (args_tuple.map FieldLevelAttr.span)) with
    | [] => FfResult.panicked
    | first :: rest =>
      match rest.foldlM Span.join first with
      | some span =>
        FfResult.err (.SpanError ⟨span, "Conflicting instances of args and args_tuple"⟩)
      | none => FfResult.panicked
  else
    FfResult.ok ()

/-- Modelled from the spec: one raw attribute block — a namespace path and
the result the embedded grammar produces for its token payload
(`parse_block(tokens) -> Result<Sequence<AnnotationValue>, ParseError>`,
§6). -/
structure Attribute where
  path : String
  parsed : Except CompileError (List FieldLevelAttr)

/-- Modelled from the spec: a field carries an ordered sequence of raw
attribute blocks. -/
structure Field where
  attrs : List Attribute

/-- Embedding of `flas_from_attribute`: running the embedded grammar on a
block yields the block's parse result. -/
def flas_from_attribute (attr : Attribute) : Except CompileError (List FieldLevelAttr) :=
  attr.parsed

/-- The blocks `from_field` recognizes: those whose path is one of the two
namespace aliases. -/
def recognized (field : Field) : List Attribute :=
  field.attrs.filter (fun a => a.path == "br" || a.path == "binread")

/-- Embedding of the collection stage of `from_field` (lines 68-77):
filter to recognized blocks, parse each, propagate the first parse error,
and flatten the per-block lists in order. -/
def collect_attrs (field : Field) : Except CompileError (List FieldLevelAttr) := do
  let lists ← (recognized field).mapM flas_from_attribute
  pure lists.flatten

/-- Embedding of the resolution stage of `from_field` (lines 79-188),
applied to the flattened list of parsed annotation occurrences. -/
def from_attrs (attrs : List FieldLevelAttr) : FfResult FieldLevelAttrs := do
  let big := first_span_true (get_fla_type attrs FlaKind.Big)
  let little := first_span_true (get_fla_type attrs FlaKind.Little)
  let default := !(get_fla_type attrs FlaKind.Default).isEmpty
  let ignore := !(get_fla_type attrs FlaKind.Ignore).isEmpty
  let deref_now := !(get_fla_type attrs FlaKind.DerefNow).isEmpty
  let restore_position := !(get_fla_type attrs FlaKind.RestorePosition).isEmpty
  let postprocess_now := !(get_fla_type attrs FlaKind.PostProcessNow).isEmpty
  let do_try := !(get_fla_type attrs FlaKind.Try).isEmpty
  let temp := !(get_fla_type attrs FlaKind.Temp).isEmpty
  let map := get_fla_type attrs FlaKind.Map
  let parse_with := get_fla_type attrs FlaKind.ParseWith
  let magic := get_fla_type attrs FlaKind.Magic
  let args := get_fla_type attrs FlaKind.Args
  let args_tuple := get_fla_type attrs FlaKind.ArgsTuple
  let _asserts := get_fla_type attrs FlaKind.Assert
  let calc_ := get_fla_type attrs FlaKind.Calc
  let count := get_fla_type attrs FlaKind.Count
  let is_little := get_fla_type attrs FlaKind.IsLittle
  let is_big := get_fla_type attrs FlaKind.IsBig
  let offset := get_fla_type attrs FlaKind.Offset
  let offset_after := get_fla_type attrs FlaKind.OffsetAfter
  let if_cond := get_fla_type attrs FlaKind.If
  let pad_before := get_fla_type attrs FlaKind.PadBefore
  let pad_after := get_fla_type attrs FlaKind.PadAfter
  let align_before := get_fla_type attrs FlaKind.AlignBefore
  let align_after := get_fla_type attrs FlaKind.AlignAfter
  let seek_before := get_fla_type attrs FlaKind.SeekBefore
  let pad_size_to := get_fla_type attrs FlaKind.PadSizeTo
  check_args_conflict args args_tuple
  let pad_before := (← get_only_first pad_before ("Conflicting instances of pad_before")).map FieldLevelAttr.payload
  let pad_after := (← get_only_first pad_after ("Conflicting instances of pad_after")).map FieldLevelAttr.payload
  let align_before := (← get_only_first align_before ("Conflicting instances of align_before")).map FieldLevelAttr.payload
  let align_after := (← get_only_first align_after ("Conflicting instances of align_after")).map FieldLevelAttr.payload
  let seek_before := (← get_only_first seek_before ("Conflicting instances of seek_before")).map FieldLevelAttr.payload
  let pad_size_to := (← get_only_first pad_size_to ("Conflicting instances of pad_size_to")).map FieldLevelAttr.payload
  let calc_ := (← get_only_first calc_ ("Conflicting instances of calc")).map FieldLevelAttr.payload
  let count := (← get_only_first count ("Conflicting instances of count")).map FieldLevelAttr.payload
  let is_little := (← get_only_first is_little ("Conflicting instances of is_little")).map FieldLevelAttr.payload
  let is_big := (← get_only_first is_big ("Conflicting instances of is_big")).map FieldLevelAttr.payload
  let offset := (← get_only_first offset ("Conflicting instances of offset")).map FieldLevelAttr.payload
  let offset_after := (← get_only_first offset_after ("Conflicting instances of offset_after")).map FieldLevelAttr.payload
  let if_cond := (← get_only_first if_cond ("Conflicting instances of if_cond")).map FieldLevelAttr.payload
  let map := (← get_only_first map ("Conflicting instances of map")).map FieldLevelAttr.payload
  let magic := (← get_only_first magic ("Conflicting instances of magic")).map FieldLevelAttr.payload
  let parse_with := (← get_only_first parse_with ("Conflicting instances of parse_with")).map FieldLevelAttr.payload
  let args := (← get_only_first args ("Conflicting instances of args")).map FieldLevelAttr.payload
  let args_tuple := (← get_only_first args_tuple ("Conflicting instances of args_tuple")).map FieldLevelAttr.payload
  let assert : List Assert := []
  let args :=
    match args_tuple with
    | some arg => PassedArgs.Tuple arg
    | none => PassedArgs.List (args.getD (Payload.list []))
  pure {
    little := little
    big := big
    ignore := ignore
    default := default
    deref_now := deref_now
    postprocess_now := postprocess_now
    restore_position := restore_position
    do_try := do_try
    temp := temp
    calc_ := calc_
    count := count
    offset := offset
    offset_after := offset_after
    if_cond := if_cond
    is_big := is_big
    is_little := is_little
    pad_before := pad_before
    pad_after := pad_after
    align_before := align_before
    align_after := align_after
    seek_before := seek_before
    pad_size_to := pad_size_to
    parse_with := parse_with
    map := map
    args := args
    assert := assert
    magic := magic
  }

/-- Embedding of `FieldLevelAttrs::from_field`: collect and parse the
recognized blocks, then resolve the flattened annotation list. -/
def from_field (field : Field) : FfResult FieldLevelAttrs :=
  match collect_attrs field with
  | Except.error e => FfResult.err e
  | Except.ok attrs => from_attrs attrs

/-- The single-valued annotation kinds, in the order their uniqueness is
checked by the `only_first!` invocation of `from_field`. -/
def singleKinds : List FlaKind :=
  [FlaKind.PadBefore, FlaKind.PadAfter, FlaKind.AlignBefore, FlaKind.AlignAfter,
   FlaKind.SeekBefore, FlaKind.PadSizeTo, FlaKind.Calc, FlaKind.Count,
   FlaKind.IsLittle, FlaKind.IsBig, FlaKind.Offset, FlaKind.OffsetAfter,
   FlaKind.If, FlaKind.Map, FlaKind.Magic, FlaKind.ParseWith,
   FlaKind.Args, FlaKind.ArgsTuple]

/-- The presence-flag annotation kinds. -/
def flagKinds : List FlaKind :=
  [FlaKind.Ignore, FlaKind.Default, FlaKind.DerefNow, FlaKind.PostProcessNow,
   FlaKind.RestorePosition, FlaKind.Try, FlaKind.Temp, FlaKind.Big, FlaKind.Little]

/-- The identifier under which each single-valued kind appears in
`from_field` (the name interpolated into its conflict message by
`stringify!`). -/
def fla_ident : FlaKind → String
  | FlaKind.PadBefore => "pad_before"
  | FlaKind.PadAfter => "pad_after"
  | FlaKind.AlignBefore => "align_before"
  | FlaKind.AlignAfter => "align_after"
  | FlaKind.SeekBefore => "seek_before"
  | FlaKind.PadSizeTo => "pad_size_to"
  | FlaKind.Calc => "calc"
  | FlaKind.Count => "count"
  | FlaKind.IsLittle => "is_little"
  | FlaKind.IsBig => "is_big"
  | FlaKind.Offset => "offset"
  | FlaKind.OffsetAfter => "offset_after"
  | FlaKind.If => "if_cond"
  | FlaKind.Map => "map"
  | FlaKind.Magic => "magic"
  | FlaKind.ParseWith => "parse_with"
  | FlaKind.Args => "args"
  | FlaKind.ArgsTuple => "args_tuple"
  | _ => ""

/-- A list of occurrences that all have one kind, with the given payloads
and spans in order. -/
def mkKindAttrs (k : FlaKind) (ps : List (Payload × Span)) : List FieldLevelAttr :=
  ps.map (fun p => ⟨k, p.1, p.2⟩)

/-- A field carrying one recognized block whose parsed contents are the
given occurrences of one kind. -/
def mkField (k : FlaKind) (ps : List (Payload × Span)) : Field :=
  ⟨[⟨"br", Except.ok (mkKindAttrs k ps)⟩]⟩

/-- The descriptor produced for a field with no recognized annotations:
every boolean flag false, every optional value `none`, the assertion list
empty, and `args` the list variant with an empty list. -/
def emptyDescr : FieldLevelAttrs where
  args := PassedArgs.List (Payload.list [])
  map := none
  ignore := false
  default := false
  calc_ := none
  count := none
  offset := none
  offset_after := none
  if_cond := none
  deref_now := false
  postprocess_now := false
  restore_position := false
  do_try := false
  temp := false
  little := ⟨false, ⟨0, 0, 0⟩⟩
  big := ⟨false, ⟨0, 0, 0⟩⟩
  is_big := none
  is_little := none
  assert := []
  magic := none
  pad_before := none
  pad_after := none
  align_before := none
  align_after := none
  seek_before := none
  pad_size_to := none
  parse_with := none

/-- The descriptor records no value for the given single-valued kind. -/
def hasNoValue (k : FlaKind) (d : FieldLevelAttrs) : Prop :=
  match k with
  | FlaKind.PadBefore => d.pad_before = none
  | FlaKind.PadAfter => d.pad_after = none
  | FlaKind.AlignBefore => d.align_before = none
  | FlaKind.AlignAfter => d.align_after = none
  | FlaKind.SeekBefore => d.seek_before = none
  | FlaKind.PadSizeTo => d.pad_size_to = none
  | FlaKind.Calc => d.calc_ = none
  | FlaKind.Count => d.count = none
  | FlaKind.IsLittle => d.is_little = none
  | FlaKind.IsBig => d.is_big = none
  | FlaKind.Offset => d.offset = none
  | FlaKind.OffsetAfter => d.offset_after = none
  | FlaKind.If => d.if_cond = none
  | FlaKind.Map => d.map = none
  | FlaKind.Magic => d.magic = none
  | FlaKind.ParseWith => d.parse_with = none
  | FlaKind.Args => d.args = PassedArgs.List (Payload.list [])
  | FlaKind.ArgsTuple => ∃ l, d.args = PassedArgs.List l
  | _ => True

/-- The descriptor records exactly the payload `p` for the given
single-valued kind. -/
def hasSingleValue (k : FlaKind) (p : Payload) (d : FieldLevelAttrs) : Prop :=
  match k with
  | FlaKind.PadBefore => d.pad_before = some p
  | FlaKind.PadAfter => d.pad_after = some p
  | FlaKind.AlignBefore => d.align_before = some p
  | FlaKind.AlignAfter => d.align_after = some p
  | FlaKind.SeekBefore => d.seek_before = some p
  | FlaKind.PadSizeTo => d.pad_size_to = some p
  | FlaKind.Calc => d.calc_ = some p
  | FlaKind.Count => d.count = some p
  | FlaKind.IsLittle => d.is_little = some p
  | FlaKind.IsBig => d.is_big = some p
  | FlaKind.Offset => d.offset = some p
  | FlaKind.OffsetAfter => d.offset_after = some p
  | FlaKind.If => d.if_cond = some p
  | FlaKind.Map => d.map = some p
  | FlaKind.Magic => d.magic = some p
  | FlaKind.ParseWith => d.parse_with = some p
  | FlaKind.Args => d.args = PassedArgs.List p
  | FlaKind.ArgsTuple => d.args = PassedArgs.Tuple p
  | _ => True

/-- The resolved boolean of a presence-flag kind in a descriptor. -/
def flagValue (k : FlaKind) (d : FieldLevelAttrs) : Bool :=
  match k with
  | FlaKind.Big => d.big.value
  | FlaKind.Little => d.little.value
  | FlaKind.Default => d.default
  | FlaKind.Ignore => d.ignore
  | FlaKind.DerefNow => d.deref_now
  | FlaKind.RestorePosition => d.restore_position
  | FlaKind.PostProcessNow => d.postprocess_now
  | FlaKind.Try => d.do_try
  | FlaKind.Temp => d.temp
  | _ => false

/-- The span a descriptor stores for a presence-flag kind, when it stores
one at all: only the `big` and `little` flags are spanned. -/
def flagSpanOpt (k : FlaKind) (d : FieldLevelAttrs) : Option Span :=
  match k with
  | FlaKind.Big => some d.big.span
  | FlaKind.Little => some d.little.span
  | _ => none

/-- The parse error of one block, when its parse failed. -/
def parse_error_of (a : Attribute) : Option CompileError :=
  match a.parsed with
  | Except.error e => some e
  | Except.ok _ => none

/-- The first parse error among the recognized blocks of a field, in block
order. -/
def firstParseError (field : Field) : Option CompileError :=
  (recognized field).findSome? parse_error_of

/-- Success test on a resolution result. -/
def FfResult.isOk {α : Type} : FfResult α → Bool
  | .ok _ => true
  | _ => false

/-- Spans of a list of annotation occurrences all lie in one source file,
so that any two of them can be joined. -/
abbrev allSameFile (l : List FieldLevelAttr) : Prop :=
  ∀ x ∈ l, ∀ y ∈ l, x.span.file = y.span.file

/-- The conflict message of `only_first!` for a single-valued kind: the
fixed prefix concatenated with the kind's identifier. -/
def conflict_msg (k : FlaKind) : String :=
  String.append ("Conflicting instances of ") (fla_ident k)

@[simp] theorem FfResult.ok_bind {α β : Type} (a : α) (f : α → FfResult β) :
    (FfResult.ok a) >>= f = f a := rfl

@[simp] theorem FfResult.err_bind {α β : Type} (e : CompileError) (f : α → FfResult β) :
    (FfResult.err e : FfResult α) >>= f = FfResult.err e := rfl

@[simp] theorem FfResult.panicked_bind {α β : Type} (f : α → FfResult β) :
    (FfResult.panicked : FfResult α) >>= f = FfResult.panicked := rfl

@[simp] theorem FfResult.pure_eq_ok {α : Type} (a : α) :
    (pure a : FfResult α) = FfResult.ok a := rfl

theorem FfResult.isOk_iff {α : Type} (r : FfResult α) :
    r.isOk = true ↔ ∃ a, r = FfResult.ok a := by
  cases r <;> simp [FfResult.isOk]

@[simp] theorem get_only_first_nil (msg : String) :
    get_only_first [] msg = FfResult.ok none := rfl

@[simp] theorem get_only_first_singleton (a : FieldLevelAttr) (msg : String) :
    get_only_first [a] msg = FfResult.ok (some a) := rfl

@[simp] theorem check_args_conflict_nil_left (t : List FieldLevelAttr) :
    check_args_conflict [] t = FfResult.ok () := rfl

@[simp] theorem check_args_conflict_nil_right (a : List FieldLevelAttr) :
    check_args_conflict a [] = FfResult.ok () := by
  simp [check_args_conflict]

@[simp] theorem first_span_true_nil : first_span_true [] = ⟨false, ⟨0, 0, 0⟩⟩ := rfl

@[simp] theorem first_span_true_cons (a : FieldLevelAttr) (l : List FieldLevelAttr) :
    first_span_true (a :: l) = ⟨true, a.span⟩ := rfl

@[simp] theorem get_fla_type_nil (k : FlaKind) : get_fla_type [] k = [] := rfl

theorem get_fla_type_cons (a : FieldLevelAttr) (l : List FieldLevelAttr) (k : FlaKind) :
    get_fla_type (a :: l) k =
      if a.kind = k then a :: get_fla_type l k else get_fla_type l k := by
  simp only [get_fla_type, List.filter_cons]
  by_cases h : a.kind = k <;> simp [h]

theorem get_fla_type_mkKindAttrs_self (k : FlaKind) (ps : List (Payload × Span)) :
    get_fla_type (mkKindAttrs k ps) k = mkKindAttrs k ps := by
  induction ps with
  | nil => rfl
  | cons p ps ih =>
    show get_fla_type (⟨k, p.1, p.2⟩ :: mkKindAttrs k ps) k
      = ⟨k, p.1, p.2⟩ :: mkKindAttrs k ps
    rw [get_fla_type_cons, if_pos rfl, ih]

theorem get_fla_type_mkKindAttrs_ne (k k' : FlaKind) (ps : List (Payload × Span))
    (h : k' ≠ k) : get_fla_type (mkKindAttrs k ps) k' = [] := by
  induction ps with
  | nil => rfl
  | cons p ps ih =>
    show get_fla_type (⟨k, p.1, p.2⟩ :: mkKindAttrs k ps) k' = []
    rw [get_fla_type_cons, if_neg (fun hc => h hc.symm), ih]

theorem mkKindAttrs_map_span (k : FlaKind) (ps : List (Payload × Span)) :
    (mkKindAttrs k ps).map FieldLevelAttr.span = ps.map Prod.snd := by
  induction ps with
  | nil => rfl
  | cons p ps ih =>
    show FieldLevelAttr.span ⟨k, p.1, p.2⟩ :: (mkKindAttrs k ps).map FieldLevelAttr.span
      = p.2 :: ps.map Prod.snd
    rw [ih]

@[simp] theorem mkKindAttrs_length (k : FlaKind) (ps : List (Payload × Span)) :
    (mkKindAttrs k ps).length = ps.length := by
  simp [mkKindAttrs]

theorem collect_attrs_mkField (k : FlaKind) (ps : List (Payload × Span)) :
    collect_attrs (mkField k ps) = Except.ok (mkKindAttrs k ps) := by
  show Except.ok (mkKindAttrs k ps ++ []) = Except.ok (mkKindAttrs k ps)
  rw [List.append_nil]

theorem from_field_mkField (k : FlaKind) (ps : List (Payload × Span)) :
    from_field (mkField k ps) = from_attrs (mkKindAttrs k ps) := by
  simp [from_field, collect_attrs_mkField]

theorem foldlM_join_sameFile (first : Span) (rest : List Span)
    (h : ∀ s ∈ rest, s.file = first.file) :
    ∃ sp, rest.foldlM Span.join first = some sp ∧ sp.file = first.file := by
  induction rest generalizing first with
  | nil => exact ⟨first, rfl, rfl⟩
  | cons b rest ih =>
    have hb : b.file = first.file := h b (by simp)
    have hstep : Span.join first b
        = some ⟨first.file, min first.lo b.lo, max first.hi b.hi⟩ := by
      simp [Span.join, hb]
    obtain ⟨sp, hsp, hf⟩ :=
      ih ⟨first.file, min first.lo b.lo, max first.hi b.hi⟩
        (fun s hs => h s (List.mem_cons_of_mem _ hs))
    refine ⟨sp, ?_, hf⟩
    rw [List.foldlM_cons, hstep]
    exact hsp

theorem joinFold_sameFile (spans : List Span) (hne : spans ≠ [])
    (h : ∀ x ∈ spans, ∀ y ∈ spans, x.file = y.file) :
    ∃ sp, joinFold spans = some sp := by
  cases spans with
  | nil => exact absurd rfl hne
  | cons a rest =>
    obtain ⟨sp, hsp, _⟩ := foldlM_join_sameFile a rest
      (fun s hs => h s (List.mem_cons_of_mem _ hs) a (List.mem_cons_self _ _))
    exact ⟨sp, hsp⟩

theorem get_only_first_conflict (list : List FieldLevelAttr) (msg : String) (sp : Span)
    (h2 : 1 < list.length) (hj : joinFold (list.map FieldLevelAttr.span) = some sp) :
    get_only_first list msg = FfResult.err (.SpanError ⟨sp, msg⟩) := by
  cases list with
  | nil => simp at h2
  | cons a t =>
    have hj' : (t.map FieldLevelAttr.span).foldlM Span.join a.span = some sp := hj
    unfold get_only_first
    rw [if_pos h2]
    simp only [List.map_cons]
    rw [hj']

theorem get_only_first_ok_inv (list : List FieldLevelAttr) (msg : String)
    (o : Option FieldLevelAttr) (h : get_only_first list msg = FfResult.ok o) :
    list.length ≤ 1 ∧ o = list.head? := by
  by_cases h2 : 1 < list.length
  · exfalso
    cases list with
    | nil => simp at h2
    | cons a t =>
      unfold get_only_first at h
      rw [if_pos h2] at h
      simp only [List.map_cons] at h
      cases hfold : (t.map FieldLevelAttr.span).foldlM Span.join a.span with
      | some sp => rw [hfold] at h; exact FfResult.noConfusion h
      | none => rw [hfold] at h; exact FfResult.noConfusion h
  · unfold get_only_first at h
    rw [if_neg h2] at h
    exact ⟨Nat.le_of_not_lt h2, (FfResult.ok.inj h).symm⟩

theorem get_only_first_ne_panicked (list : List FieldLevelAttr) (msg : String)
    (h : ∀ x ∈ list, ∀ y ∈ list, x.span.file = y.span.file) :
    get_only_first list msg ≠ FfResult.panicked := by
  by_cases h2 : 1 < list.length
  · cases list with
    | nil => simp at h2
    | cons a t =>
      have hmap : ∀ x ∈ (a :: t).map FieldLevelAttr.span,
          ∀ y ∈ (a :: t).map FieldLevelAttr.span, x.file = y.file := by
        intro x hx y hy
        obtain ⟨u, hu, rfl⟩ := List.mem_map.mp hx
        obtain ⟨v, hv, rfl⟩ := List.mem_map.mp hy
        exact h u hu v hv
      obtain ⟨sp, hsp⟩ := joinFold_sameFile ((a :: t).map FieldLevelAttr.span)
        (by simp) hmap
      rw [get_only_first_conflict _ msg sp h2 hsp]
      exact fun hc => FfResult.noConfusion hc
  · unfold get_only_first
    rw [if_neg h2]
    exact fun hc => FfResult.noConfusion hc

theorem check_args_conflict_conflict (A T : List FieldLevelAttr) (sp : Span)
    (hA : A ≠ []) (hT : T ≠ [])
    (hj : joinFold (A.map FieldLevelAttr.span ++ T.map FieldLevelAttr.span) = some sp) :
    check_args_conflict A T
      = FfResult.err (.SpanError ⟨sp, "Conflicting instances of args and args_tuple"⟩) := by
  obtain ⟨a, as, rfl⟩ := List.exists_cons_of_ne_nil hA
  have hj' : ((as.map FieldLevelAttr.span) ++ (T.map FieldLevelAttr.span)).foldlM
      Span.join a.span = some sp := hj
  unfold check_args_conflict
  rw [if_pos (by simp [List.length_pos, hT])]
  simp only [List.map_cons, List.cons_append]
  rw [hj']

theorem check_args_conflict_ok_inv (A T : List FieldLevelAttr)
    (h : check_args_conflict A T = FfResult.ok ()) : A = [] ∨ T = [] := by
  by_cases hA : A = []
  · exact Or.inl hA
  · by_cases hT : T = []
    · exact Or.inr hT
    · exfalso
      obtain ⟨a, as, rfl⟩ := List.exists_cons_of_ne_nil hA
      unfold check_args_conflict at h
      rw [if_pos (by simp [List.length_pos, hT])] at h
      simp only [List.map_cons, List.cons_append] at h
      cases hfold : ((as.map FieldLevelAttr.span) ++ (T.map FieldLevelAttr.span)).foldlM
          Span.join a.span with
      | some sp => rw [hfold] at h; exact FfResult.noConfusion h
      | none => rw [hfold] at h; exact FfResult.noConfusion h

theorem check_args_conflict_ne_panicked (A T : List FieldLevelAttr)
    (h : ∀ x ∈ A ++ T, ∀ y ∈ A ++ T, x.span.file = y.span.file) :
    check_args_conflict A T ≠ FfResult.panicked := by
  by_cases hA : A = []
  · subst hA; simp
  · by_cases hT : T = []
    · subst hT; rw [check_args_conflict_nil_right]
      exact fun hc => FfResult.noConfusion hc
    · have hne : A.map FieldLevelAttr.span ++ T.map FieldLevelAttr.span ≠ [] := by
        obtain ⟨a, as, rfl⟩ := List.exists_cons_of_ne_nil hA
        simp
      have hmap : ∀ x ∈ A.map FieldLevelAttr.span ++ T.map FieldLevelAttr.span,
          ∀ y ∈ A.map FieldLevelAttr.span ++ T.map FieldLevelAttr.span,
          x.file = y.file := by
        intro x hx y hy
        rw [← List.map_append] at hx hy
        obtain ⟨u, hu, rfl⟩ := List.mem_map.mp hx
        obtain ⟨v, hv, rfl⟩ := List.mem_map.mp hy
        exact h u hu v hv
      obtain ⟨sp, hsp⟩ := joinFold_sameFile
        (A.map FieldLevelAttr.span ++ T.map FieldLevelAttr.span) hne hmap
      rw [check_args_conflict_conflict A T sp hA hT hsp]
      exact fun hc => FfResult.noConfusion hc

theorem FfResult.bind_eq_ok {α β : Type} {x : FfResult α} {f : α → FfResult β} {b : β} :
    x >>= f = FfResult.ok b ↔ ∃ a, x = FfResult.ok a ∧ f a = FfResult.ok b := by
  cases x with
  | ok a => simp
  | err e => simp
  | panicked => simp

theorem FfResult.bind_eq_panicked {α β : Type} {x : FfResult α} {f : α → FfResult β} :
    x >>= f = FfResult.panicked
      ↔ x = FfResult.panicked ∨ ∃ a, x = FfResult.ok a ∧ f a = FfResult.panicked := by
  cases x with
  | ok a => simp
  | err e => simp
  | panicked => simp

theorem from_attrs_cross_conflict (attrs : List FieldLevelAttr) (sp : Span)
    (hA : get_fla_type attrs FlaKind.Args ≠ [])
    (hT : get_fla_type attrs FlaKind.ArgsTuple ≠ [])
    (hj : joinFold ((get_fla_type attrs FlaKind.Args).map FieldLevelAttr.span ++
      (get_fla_type attrs FlaKind.ArgsTuple).map FieldLevelAttr.span) = some sp) :
    from_attrs attrs
      = FfResult.err (.SpanError ⟨sp, "Conflicting instances of args and args_tuple"⟩) := by
  have hcc := check_args_conflict_conflict _ _ sp hA hT hj
  simp only [from_attrs]
  rw [hcc]
  rfl

theorem from_attrs_single_conflict (k : FlaKind) (hk : k ∈ singleKinds)
    (ps : List (Payload × Span)) (sp : Span) (h2 : 1 < ps.length)
    (hj : joinFold (ps.map Prod.snd) = some sp) :
    from_attrs (mkKindAttrs k ps)
      = FfResult.err (.SpanError ⟨sp, conflict_msg k⟩) := by
  have h2' : 1 < (mkKindAttrs k ps).length := by simpa using h2
  have hjm : joinFold ((mkKindAttrs k ps).map FieldLevelAttr.span) = some sp := by
    rw [mkKindAttrs_map_span]; exact hj
  have hko : ∀ msg, get_only_first (mkKindAttrs k ps) msg
      = FfResult.err (.SpanError ⟨sp, msg⟩) :=
    fun msg => get_only_first_conflict _ msg sp h2' hjm
  fin_cases hk <;>
    simp [from_attrs, get_fla_type_mkKindAttrs_self, get_fla_type_mkKindAttrs_ne,
      hko, conflict_msg, fla_ident] <;>
    rfl

theorem from_attrs_flag_ok (k : FlaKind) (hk : k ∈ flagKinds) (ps : List (Payload × Span)) :
    (from_attrs (mkKindAttrs k ps)).isOk = true := by
  fin_cases hk <;>
    simp [from_attrs, get_fla_type_mkKindAttrs_self, get_fla_type_mkKindAttrs_ne,
      FfResult.isOk]

theorem from_attrs_ok_inv (attrs : List FieldLevelAttr) (d : FieldLevelAttrs)
    (h : from_attrs attrs = FfResult.ok d) :
    (get_fla_type attrs FlaKind.Args = [] ∨ get_fla_type attrs FlaKind.ArgsTuple = []) ∧
    (∀ k ∈ singleKinds, (get_fla_type attrs k).length ≤ 1) ∧
    d.big = first_span_true (get_fla_type attrs FlaKind.Big) ∧
    d.little = first_span_true (get_fla_type attrs FlaKind.Little) ∧
    d.ignore = !(get_fla_type attrs FlaKind.Ignore).isEmpty ∧
    d.default = !(get_fla_type attrs FlaKind.Default).isEmpty ∧
    d.deref_now = !(get_fla_type attrs FlaKind.DerefNow).isEmpty ∧
    d.postprocess_now = !(get_fla_type attrs FlaKind.PostProcessNow).isEmpty ∧
    d.restore_position = !(get_fla_type attrs FlaKind.RestorePosition).isEmpty ∧
    d.do_try = !(get_fla_type attrs FlaKind.Try).isEmpty ∧
    d.temp = !(get_fla_type attrs FlaKind.Temp).isEmpty ∧
    d.assert = [] ∧
    d.args = (match (get_fla_type attrs FlaKind.ArgsTuple).head? with
      | some a => PassedArgs.Tuple a.payload
      | none => PassedArgs.List
          ((((get_fla_type attrs FlaKind.Args).head?).map FieldLevelAttr.payload).getD
            (Payload.list []))) := by
  simp only [from_attrs, FfResult.bind_eq_ok, FfResult.pure_eq_ok, FfResult.ok.injEq] at h
  obtain ⟨u, hcheck, o1, h1, o2, h2, o3, h3, o4, h4, o5, h5, o6, h6, o7, h7, o8, h8,
    o9, h9, o10, h10, o11, h11, o12, h12, o13, h13, o14, h14, o15, h15, o16, h16,
    o17, h17, o18, h18, hd⟩ := h
  subst hd
  refine ⟨check_args_conflict_ok_inv _ _ hcheck, ?_, rfl, rfl, rfl, rfl, rfl, rfl,
    rfl, rfl, rfl, rfl, ?_⟩
  · intro k hk
    fin_cases hk
    · exact (get_only_first_ok_inv _ _ _ h1).1
    · exact (get_only_first_ok_inv _ _ _ h2).1
    · exact (get_only_first_ok_inv _ _ _ h3).1
    · exact (get_only_first_ok_inv _ _ _ h4).1
    · exact (get_only_first_ok_inv _ _ _ h5).1
    · exact (get_only_first_ok_inv _ _ _ h6).1
    · exact (get_only_first_ok_inv _ _ _ h7).1
    · exact (get_only_first_ok_inv _ _ _ h8).1
    · exact (get_only_first_ok_inv _ _ _ h9).1
    · exact (get_only_first_ok_inv _ _ _ h10).1
    · exact (get_only_first_ok_inv _ _ _ h11).1
    · exact (get_only_first_ok_inv _ _ _ h12).1
    · exact (get_only_first_ok_inv _ _ _ h13).1
    · exact (get_only_first_ok_inv _ _ _ h14).1
    · exact (get_only_first_ok_inv _ _ _ h15).1
    · exact (get_only_first_ok_inv _ _ _ h16).1
    · exact (get_only_first_ok_inv _ _ _ h17).1
    · exact (get_only_first_ok_inv _ _ _ h18).1
  · rw [show o18 = (get_fla_type attrs FlaKind.ArgsTuple).head? from
      (get_only_first_ok_inv _ _ _ h18).2]
    rw [show o17 = (get_fla_type attrs FlaKind.Args).head? from
      (get_only_first_ok_inv _ _ _ h17).2]
    cases (get_fla_type attrs FlaKind.ArgsTuple).head? <;> simp

theorem from_attrs_ne_panicked (attrs : List FieldLevelAttr) (hsame : allSameFile attrs) :
    from_attrs attrs ≠ FfResult.panicked := by
  intro hp
  have hgof : ∀ (k : FlaKind) (msg : String),
      get_only_first (get_fla_type attrs k) msg ≠ FfResult.panicked :=
    fun k msg => get_only_first_ne_panicked _ _
      (fun x hx y hy =>
        hsame x (List.mem_filter.mp hx).1 y (List.mem_filter.mp hy).1)
  have hmemAT : ∀ x ∈ (get_fla_type attrs FlaKind.Args)
      ++ (get_fla_type attrs FlaKind.ArgsTuple), x ∈ attrs := by
    intro x hx
    rcases List.mem_append.mp hx with h1 | h1 <;> exact (List.mem_filter.mp h1).1
  have hcheckne := check_args_conflict_ne_panicked
    (get_fla_type attrs FlaKind.Args) (get_fla_type attrs FlaKind.ArgsTuple)
    (fun x hx y hy => hsame x (hmemAT x hx) y (hmemAT y hy))
  simp only [from_attrs, FfResult.bind_eq_panicked, FfResult.pure_eq_ok] at hp
  rcases hp with hc | ⟨_, _, hp⟩
  · exact hcheckne hc
  rcases hp with hc | ⟨_, _, hp⟩
  · exact hgof _ _ hc
  rcases hp with hc | ⟨_, _, hp⟩
  · exact hgof _ _ hc
  rcases hp with hc | ⟨_, _, hp⟩
  · exact hgof _ _ hc
  rcases hp with hc | ⟨_, _, hp⟩
  · exact hgof _ _ hc
  rcases hp with hc | ⟨_, _, hp⟩
  · exact hgof _ _ hc
  rcases hp with hc | ⟨_, _, hp⟩
  · exact hgof _ _ hc
  rcases hp with hc | ⟨_, _, hp⟩
  · exact hgof _ _ hc
  rcases hp with hc | ⟨_, _, hp⟩
  · exact hgof _ _ hc
  rcases hp with hc | ⟨_, _, hp⟩
  · exact hgof _ _ hc
  rcases hp with hc | ⟨_, _, hp⟩
  · exact hgof _ _ hc
  rcases hp with hc | ⟨_, _, hp⟩
  · exact hgof _ _ hc
  rcases hp with hc | ⟨_, _, hp⟩
  · exact hgof _ _ hc
  rcases hp with hc | ⟨_, _, hp⟩
  · exact hgof _ _ hc
  rcases hp with hc | ⟨_, _, hp⟩
  · exact hgof _ _ hc
  rcases hp with hc | ⟨_, _, hp⟩
  · exact hgof _ _ hc
  rcases hp with hc | ⟨_, _, hp⟩
  · exact hgof _ _ hc
  rcases hp with hc | ⟨_, _, hp⟩
  · exact hgof _ _ hc
  rcases hp with hc | ⟨_, _, hp⟩
  · exact hgof _ _ hc
  exact FfResult.noConfusion hp

theorem hasNoValue_emptyDescr (k : FlaKind) : hasNoValue k emptyDescr := by
  cases k <;> simp [hasNoValue, emptyDescr]

theorem mkKindAttrs_isEmpty (k : FlaKind) (ps : List (Payload × Span)) :
    (mkKindAttrs k ps).isEmpty = ps.isEmpty := by
  cases ps <;> rfl

theorem mapM_parse_error (l : List Attribute) (e : CompileError)
    (h : l.findSome? parse_error_of = some e) :
    l.mapM flas_from_attribute = Except.error e := by
  induction l with
  | nil => simp at h
  | cons a t ih =>
    rw [List.findSome?_cons] at h
    cases hp : a.parsed with
    | error e2 =>
      have hpe : parse_error_of a = some e2 := by simp [parse_error_of, hp]
      rw [hpe] at h
      injection h with h'
      subst h'
      rw [List.mapM_cons, show flas_from_attribute a = Except.error e2 from hp]
      rfl
    | ok v =>
      have hpe : parse_error_of a = none := by simp [parse_error_of, hp]
      rw [hpe] at h
      rw [List.mapM_cons, show flas_from_attribute a = Except.ok v from hp, ih h]
      rfl

theorem mapM_all_ok (l : List Attribute) (ls : List (List FieldLevelAttr))
    (h : l.map Attribute.parsed = ls.map Except.ok) :
    l.mapM flas_from_attribute = Except.ok ls := by
  induction l generalizing ls with
  | nil =>
    cases ls with
    | nil => rfl
    | cons b bs => simp at h
  | cons a t ih =>
    cases ls with
    | nil => simp at h
    | cons b bs =>
      simp only [List.map_cons, List.cons.injEq] at h
      rw [List.mapM_cons, show flas_from_attribute a = Except.ok b from h.1, ih bs h.2]
      rfl

theorem collect_attrs_parse_error (field : Field) (e : CompileError)
    (h : firstParseError field = some e) : collect_attrs field = Except.error e := by
  unfold collect_attrs
  rw [mapM_parse_error _ e h]
  rfl

theorem collect_attrs_all_ok (field : Field) (ls : List (List FieldLevelAttr))
    (h : (recognized field).map Attribute.parsed = ls.map Except.ok) :
    collect_attrs field = Except.ok ls.flatten := by
  unfold collect_attrs
  rw [mapM_all_ok _ _ h]
  rfl

theorem from_field_parse_error (field : Field) (e : CompileError)
    (h : firstParseError field = some e) : from_field field = FfResult.err e := by
  unfold from_field
  rw [collect_attrs_parse_error field e h]

theorem recognized_idem (field : Field) : recognized ⟨recognized field⟩ = recognized field := by
  simp [recognized, List.filter_filter]

theorem collect_attrs_recognized (field : Field) :
    collect_attrs ⟨recognized field⟩ = collect_attrs field := by
  unfold collect_attrs
  rw [recognized_idem]

/-- C1: for every single-valued annotation kind, `from_field` resolves zero
occurrences to the absent value, one occurrence to that occurrence's
payload with no error, and two or more occurrences (joinable spans) to a
conflict error carrying that kind's conflict message, with no descriptor;
one statement uniform in the kind, mirroring the one shared
`get_only_first` policy. -/
theorem claim_C1 (k : FlaKind) (hk : k ∈ singleKinds) (ps : List (Payload × Span)) :
    (ps = [] →
      from_field (mkField k ps) = FfResult.ok emptyDescr ∧ hasNoValue k emptyDescr) ∧
    (∀ p s, ps = [(p, s)] →
      ∃ d, from_field (mkField k ps) = FfResult.ok d ∧ hasSingleValue k p d) ∧
    (2 ≤ ps.length → (∀ x ∈ ps, ∀ y ∈ ps, x.2.file = y.2.file) →
      ∃ sp, from_field (mkField k ps)
        = FfResult.err (.SpanError ⟨sp, conflict_msg k⟩)) := by
  refine ⟨?_, ?_, ?_⟩
  · rintro rfl
    exact ⟨rfl, hasNoValue_emptyDescr k⟩
  · rintro p s rfl
    fin_cases hk <;> exact ⟨_, rfl, rfl⟩
  · intro h2 hf
    have hne : ps.map Prod.snd ≠ [] := by
      cases ps with
      | nil => simp at h2
      | cons a t => simp
    have hsf : ∀ x ∈ ps.map Prod.snd, ∀ y ∈ ps.map Prod.snd, x.file = y.file := by
      intro x hx y hy
      obtain ⟨u, hu, rfl⟩ := List.mem_map.mp hx
      obtain ⟨v, hv, rfl⟩ := List.mem_map.mp hy
      exact hf u hu v hv
    obtain ⟨sp, hsp⟩ := joinFold_sameFile _ hne hsf
    refine ⟨sp, ?_⟩
    rw [from_field_mkField]
    exact from_attrs_single_conflict k hk ps sp (by omega) hsp

theorem claim_C1_witness :
    ∃ d, from_field (mkField FlaKind.Calc [(Payload.expr 7, ⟨0, 0, 3⟩)]) = FfResult.ok d ∧
      hasSingleValue FlaKind.Calc (Payload.expr 7) d :=
  (claim_C1 FlaKind.Calc (by decide) [(Payload.expr 7, ⟨0, 0, 3⟩)]).2.1
    (Payload.expr 7) ⟨0, 0, 3⟩ rfl

/-- C2: when a field's annotations contain at least one `args` and at
least one `args_tuple` occurrence, `from_field` fails with the cross-group
conflict error whose span is the join of every occurrence of both groups,
regardless of how many occurrences either group has — so the cross-group
check precedes and overrides the within-group uniqueness check. -/
theorem claim_C2 (field : Field) (attrs : List FieldLevelAttr) (sp : Span)
    (hc : collect_attrs field = Except.ok attrs)
    (hA : get_fla_type attrs FlaKind.Args ≠ [])
    (hT : get_fla_type attrs FlaKind.ArgsTuple ≠ [])
    (hj : joinFold ((get_fla_type attrs FlaKind.Args).map FieldLevelAttr.span ++
      (get_fla_type attrs FlaKind.ArgsTuple).map FieldLevelAttr.span) = some sp) :
    from_field field
      = FfResult.err (.SpanError ⟨sp, "Conflicting instances of args and args_tuple"⟩) := by
  have hcross := from_attrs_cross_conflict attrs sp hA hT hj
  unfold from_field
  rw [hc]
  exact hcross

theorem claim_C2_witness :
    from_field ⟨[⟨"br", Except.ok
        [⟨FlaKind.Args, Payload.list [1], ⟨0, 0, 2⟩⟩, ⟨FlaKind.Args, Payload.list [2], ⟨0, 3, 4⟩⟩,
         ⟨FlaKind.ArgsTuple, Payload.expr 5, ⟨0, 5, 8⟩⟩]⟩]⟩
      = FfResult.err (.SpanError ⟨⟨0, 0, 8⟩, "Conflicting instances of args and args_tuple"⟩) :=
  claim_C2 ⟨[⟨"br", Except.ok
      [⟨FlaKind.Args, Payload.list [1], ⟨0, 0, 2⟩⟩, ⟨FlaKind.Args, Payload.list [2], ⟨0, 3, 4⟩⟩,
       ⟨FlaKind.ArgsTuple, Payload.expr 5, ⟨0, 5, 8⟩⟩]⟩]⟩
    [⟨FlaKind.Args, Payload.list [1], ⟨0, 0, 2⟩⟩, ⟨FlaKind.Args, Payload.list [2], ⟨0, 3, 4⟩⟩,
     ⟨FlaKind.ArgsTuple, Payload.expr 5, ⟨0, 5, 8⟩⟩]
    ⟨0, 0, 8⟩ rfl (by decide) (by decide) (by decide)

/-- C3 counterexample: a field annotated with both `big` and `little` is
not rejected — `from_field` succeeds, so the claim that it returns a
conflict error naming the endianness conflict is false on the code. -/
theorem claim_C3_counterexample :
    from_field ⟨[⟨"br", Except.ok
        [⟨FlaKind.Big, Payload.flag, ⟨0, 0, 1⟩⟩, ⟨FlaKind.Little, Payload.flag, ⟨0, 2, 3⟩⟩]⟩]⟩
      = FfResult.ok
          { emptyDescr with big := ⟨true, ⟨0, 0, 1⟩⟩, little := ⟨true, ⟨0, 2, 3⟩⟩ } := by
  rfl

/-- C3 amended: `big` and `little` are resolved as independent presence
flags with no mutual-exclusion check — a field carrying both resolves
without error to a descriptor with both flags true, each carrying its own
first occurrence's span. -/
theorem claim_C3 (s1 s2 : Span) :
    from_field ⟨[⟨"br", Except.ok
        [⟨FlaKind.Big, Payload.flag, s1⟩, ⟨FlaKind.Little, Payload.flag, s2⟩]⟩]⟩
      = FfResult.ok { emptyDescr with big := ⟨true, s1⟩, little := ⟨true, s2⟩ } := by
  rfl

/-- C4: a single-group conflict error for any single-valued kind carries
the left-fold join of all occurrence spans in encounter order, and its
message is the fixed prefix concatenated with that kind's identifier; the
identifier determines the kind uniquely among single-valued kinds. -/
theorem claim_C4 (k : FlaKind) (hk : k ∈ singleKinds) (ps : List (Payload × Span))
    (sp : Span) (h2 : 2 ≤ ps.length) (hj : joinFold (ps.map Prod.snd) = some sp) :
    from_field (mkField k ps) = FfResult.err (.SpanError ⟨sp, conflict_msg k⟩) ∧
    (∀ k1 ∈ singleKinds, ∀ k2 ∈ singleKinds, fla_ident k1 = fla_ident k2 → k1 = k2) := by
  refine ⟨?_, by decide⟩
  rw [from_field_mkField]
  exact from_attrs_single_conflict k hk ps sp (by omega) hj

theorem claim_C4_witness :
    from_field (mkField FlaKind.Count
        [(Payload.expr 1, ⟨0, 0, 2⟩), (Payload.expr 2, ⟨0, 5, 9⟩)])
      = FfResult.err (.SpanError ⟨⟨0, 0, 9⟩, conflict_msg FlaKind.Count⟩) :=
  (claim_C4 FlaKind.Count (by decide)
    [(Payload.expr 1, ⟨0, 0, 2⟩), (Payload.expr 2, ⟨0, 5, 9⟩)]
    ⟨0, 0, 9⟩ (by decide) (by decide)).1

/-- C8: a field with no recognized annotation blocks resolves without
error to the all-default descriptor: every boolean false, every optional
value absent, the assertion list empty, and `args` the empty ordered
list. -/
theorem claim_C8 (field : Field) (h : recognized field = []) :
    from_field field = FfResult.ok emptyDescr := by
  have hc : collect_attrs field = Except.ok [] := by
    unfold collect_attrs
    rw [h]
    rfl
  unfold from_field
  rw [hc]
  rfl

theorem claim_C8_witness :
    from_field ⟨[⟨"serde", Except.ok []⟩, ⟨"repr", Except.error
      (CompileError.Syn ⟨⟨0, 0, 1⟩, "unrelated"⟩)⟩]⟩ = FfResult.ok emptyDescr :=
  claim_C8 ⟨[⟨"serde", Except.ok []⟩, ⟨"repr", Except.error
    (CompileError.Syn ⟨⟨0, 0, 1⟩, "unrelated"⟩)⟩]⟩ rfl

/-- C10: under the precondition that all spans of a field's parsed
annotations come from one source file (so every pairwise join is defined),
no error-construction path of `from_field` reaches an undefined join: the
computation never panics. -/
theorem claim_C10 (field : Field)
    (h : ∀ attrs, collect_attrs field = Except.ok attrs → allSameFile attrs) :
    from_field field ≠ FfResult.panicked := by
  cases hc : collect_attrs field with
  | error e =>
    unfold from_field
    rw [hc]
    exact fun hcon => FfResult.noConfusion hcon
  | ok attrs =>
    unfold from_field
    rw [hc]
    exact from_attrs_ne_panicked attrs (h attrs hc)

theorem claim_C10_witness :
    from_field ⟨[⟨"br", Except.ok
        [⟨FlaKind.Count, Payload.expr 1, ⟨0, 0, 1⟩⟩,
         ⟨FlaKind.Count, Payload.expr 2, ⟨0, 2, 3⟩⟩]⟩]⟩ ≠ FfResult.panicked :=
  claim_C10 ⟨[⟨"br", Except.ok
      [⟨FlaKind.Count, Payload.expr 1, ⟨0, 0, 1⟩⟩,
       ⟨FlaKind.Count, Payload.expr 2, ⟨0, 2, 3⟩⟩]⟩]⟩
    (by
      intro attrs hc
      rw [show collect_attrs ⟨[⟨"br", Except.ok
          [⟨FlaKind.Count, Payload.expr 1, ⟨0, 0, 1⟩⟩,
           ⟨FlaKind.Count, Payload.expr 2, ⟨0, 2, 3⟩⟩]⟩]⟩
        = Except.ok [⟨FlaKind.Count, Payload.expr 1, ⟨0, 0, 1⟩⟩,
           ⟨FlaKind.Count, Payload.expr 2, ⟨0, 2, 3⟩⟩] from rfl] at hc
      injection hc with h2
      subst h2
      decide)

/-- C5 counterexample: the claim says every resolved presence flag carries
the span of its first occurrence, but for `ignore` (and the other six
unspanned flags) the resolution discards spans entirely: two fields whose
single `ignore` occurrence sits at different spans resolve to identical
descriptors, so no span is carried. -/
theorem claim_C5_counterexample :
    from_field (mkField FlaKind.Ignore [(Payload.flag, ⟨0, 0, 1⟩)])
      = from_field (mkField FlaKind.Ignore [(Payload.flag, ⟨0, 5, 9⟩)]) ∧
    (⟨0, 0, 1⟩ : Span) ≠ ⟨0, 5, 9⟩ :=
  ⟨rfl, by decide⟩

/-- C5 amended: for every presence-flag kind resolution never fails, the
resolved boolean is true exactly when at least one occurrence appears, and
of the nine flags only `big` and `little` carry a span — the span of the
first occurrence, spans of later duplicates being discarded; the other
seven flags are plain booleans carrying no span. -/
theorem claim_C5 (k : FlaKind) (hk : k ∈ flagKinds) (ps : List (Payload × Span)) :
    ∃ d, from_field (mkField k ps) = FfResult.ok d ∧
      flagValue k d = !ps.isEmpty ∧
      (∀ p s rest, ps = (p, s) :: rest → ∀ sp, flagSpanOpt k d = some sp → sp = s) := by
  have hok := from_attrs_flag_ok k hk ps
  rw [FfResult.isOk_iff] at hok
  obtain ⟨d, hd⟩ := hok
  obtain ⟨-, -, hbig, hlittle, hignore, hdefault, hderef, hpost, hrestore, htry, htemp,
    -, -⟩ := from_attrs_ok_inv _ _ hd
  refine ⟨d, ?_, ?_, ?_⟩
  · rw [from_field_mkField]
    exact hd
  · fin_cases hk
    · show d.ignore = !ps.isEmpty
      rw [hignore, get_fla_type_mkKindAttrs_self, mkKindAttrs_isEmpty]
    · show d.default = !ps.isEmpty
      rw [hdefault, get_fla_type_mkKindAttrs_self, mkKindAttrs_isEmpty]
    · show d.deref_now = !ps.isEmpty
      rw [hderef, get_fla_type_mkKindAttrs_self, mkKindAttrs_isEmpty]
    · show d.postprocess_now = !ps.isEmpty
      rw [hpost, get_fla_type_mkKindAttrs_self, mkKindAttrs_isEmpty]
    · show d.restore_position = !ps.isEmpty
      rw [hrestore, get_fla_type_mkKindAttrs_self, mkKindAttrs_isEmpty]
    · show d.do_try = !ps.isEmpty
      rw [htry, get_fla_type_mkKindAttrs_self, mkKindAttrs_isEmpty]
    · show d.temp = !ps.isEmpty
      rw [htemp, get_fla_type_mkKindAttrs_self, mkKindAttrs_isEmpty]
    · show d.big.value = !ps.isEmpty
      rw [hbig, get_fla_type_mkKindAttrs_self]
      cases ps <;> rfl
    · show d.little.value = !ps.isEmpty
      rw [hlittle, get_fla_type_mkKindAttrs_self]
      cases ps <;> rfl
  · rintro p s rest rfl sp hsp
    fin_cases hk
    · simp [flagSpanOpt] at hsp
    · simp [flagSpanOpt] at hsp
    · simp [flagSpanOpt] at hsp
    · simp [flagSpanOpt] at hsp
    · simp [flagSpanOpt] at hsp
    · simp [flagSpanOpt] at hsp
    · simp [flagSpanOpt] at hsp
    · have hbig2 : d.big = ⟨true, s⟩ := by
        rw [hbig, get_fla_type_mkKindAttrs_self]
        rfl
      simp only [flagSpanOpt] at hsp
      rw [hbig2] at hsp
      exact (Option.some.inj hsp).symm
    · have hlittle2 : d.little = ⟨true, s⟩ := by
        rw [hlittle, get_fla_type_mkKindAttrs_self]
        rfl
      simp only [flagSpanOpt] at hsp
      rw [hlittle2] at hsp
      exact (Option.some.inj hsp).symm

theorem claim_C5_witness :
    ∃ d, from_field (mkField FlaKind.Temp
        [(Payload.flag, ⟨0, 0, 1⟩), (Payload.flag, ⟨0, 2, 3⟩)]) = FfResult.ok d ∧
      flagValue FlaKind.Temp d
        = !([(Payload.flag, (⟨0, 0, 1⟩ : Span)), (Payload.flag, ⟨0, 2, 3⟩)]).isEmpty ∧
      (∀ p s rest,
        [(Payload.flag, (⟨0, 0, 1⟩ : Span)), (Payload.flag, ⟨0, 2, 3⟩)] = (p, s) :: rest →
        ∀ sp, flagSpanOpt FlaKind.Temp d = some sp → sp = s) :=
  claim_C5 FlaKind.Temp (by decide)
    [(Payload.flag, ⟨0, 0, 1⟩), (Payload.flag, ⟨0, 2, 3⟩)]

/-- C6: `from_field` considers only the blocks whose namespace is one of
the two aliases, concatenates every recognized block's parsed values in
block order with internal order preserved, and propagates the first
recognized block's parse error unchanged with no partial results. -/
theorem claim_C6 (field : Field) :
    from_field field = from_field ⟨recognized field⟩ ∧
    (∀ e, firstParseError field = some e → from_field field = FfResult.err e) ∧
    (∀ ls : List (List FieldLevelAttr),
      (recognized field).map Attribute.parsed = ls.map Except.ok →
      from_field field = from_attrs ls.flatten) := by
  refine ⟨?_, ?_, ?_⟩
  · unfold from_field
    rw [collect_attrs_recognized]
  · exact fun e he => from_field_parse_error field e he
  · intro ls hls
    unfold from_field
    rw [collect_attrs_all_ok field ls hls]

theorem claim_C6_witness :
    from_field ⟨[⟨"br", Except.ok [⟨FlaKind.Big, Payload.flag, ⟨0, 0, 1⟩⟩]⟩,
        ⟨"other", Except.error (CompileError.Syn ⟨⟨0, 9, 9⟩, "skipped"⟩)⟩,
        ⟨"binread", Except.ok [⟨FlaKind.Count, Payload.expr 4, ⟨0, 2, 3⟩⟩]⟩]⟩
      = from_attrs ([[⟨FlaKind.Big, Payload.flag, ⟨0, 0, 1⟩⟩],
          [⟨FlaKind.Count, Payload.expr 4, ⟨0, 2, 3⟩⟩]] :
            List (List FieldLevelAttr)).flatten :=
  (claim_C6 ⟨[⟨"br", Except.ok [⟨FlaKind.Big, Payload.flag, ⟨0, 0, 1⟩⟩]⟩,
      ⟨"other", Except.error (CompileError.Syn ⟨⟨0, 9, 9⟩, "skipped"⟩)⟩,
      ⟨"binread", Except.ok [⟨FlaKind.Count, Payload.expr 4, ⟨0, 2, 3⟩⟩]⟩]⟩).2.2
    [[⟨FlaKind.Big, Payload.flag, ⟨0, 0, 1⟩⟩],
     [⟨FlaKind.Count, Payload.expr 4, ⟨0, 2, 3⟩⟩]] rfl

/-- C7: resolution is fail-fast in the fixed order block parsing, then
the cross-group check, then per-kind uniqueness: a parse error is returned
as-is regardless of later conflicts; with parsing succeeded, a cross-group
violation yields the cross-group error; and a returned descriptor implies
no parse error, no cross-group violation and no duplicated single-valued
kind — at most one error is reported and no descriptor coexists with
one. -/
theorem claim_C7 (field : Field) :
    (∀ e, firstParseError field = some e → from_field field = FfResult.err e) ∧
    (∀ attrs, collect_attrs field = Except.ok attrs →
      get_fla_type attrs FlaKind.Args ≠ [] →
      get_fla_type attrs FlaKind.ArgsTuple ≠ [] →
      allSameFile attrs →
      ∃ sp, from_field field
        = FfResult.err (.SpanError ⟨sp, "Conflicting instances of args and args_tuple"⟩)) ∧
    (∀ d, from_field field = FfResult.ok d →
      firstParseError field = none ∧
      ∃ attrs, collect_attrs field = Except.ok attrs ∧
        (get_fla_type attrs FlaKind.Args = [] ∨ get_fla_type attrs FlaKind.ArgsTuple = []) ∧
        ∀ k ∈ singleKinds, (get_fla_type attrs k).length ≤ 1) := by
  refine ⟨fun e he => from_field_parse_error field e he, ?_, ?_⟩
  · intro attrs hc hA hT hsame
    have hne : (get_fla_type attrs FlaKind.Args).map FieldLevelAttr.span
        ++ (get_fla_type attrs FlaKind.ArgsTuple).map FieldLevelAttr.span ≠ [] := by
      obtain ⟨a, as, h'⟩ := List.exists_cons_of_ne_nil hA
      rw [h']
      simp
    have hmem : ∀ x ∈ get_fla_type attrs FlaKind.Args
        ++ get_fla_type attrs FlaKind.ArgsTuple, x ∈ attrs := by
      intro x hx
      rcases List.mem_append.mp hx with h1 | h1 <;> exact (List.mem_filter.mp h1).1
    have hmap : ∀ x ∈ (get_fla_type attrs FlaKind.Args).map FieldLevelAttr.span
        ++ (get_fla_type attrs FlaKind.ArgsTuple).map FieldLevelAttr.span,
        ∀ y ∈ (get_fla_type attrs FlaKind.Args).map FieldLevelAttr.span
        ++ (get_fla_type attrs FlaKind.ArgsTuple).map FieldLevelAttr.span,
        x.file = y.file := by
      intro x hx y hy
      rw [← List.map_append] at hx hy
      obtain ⟨u, hu, rfl⟩ := List.mem_map.mp hx
      obtain ⟨v, hv, rfl⟩ := List.mem_map.mp hy
      exact hsame u (hmem u hu) v (hmem v hv)
    obtain ⟨sp, hsp⟩ := joinFold_sameFile _ hne hmap
    refine ⟨sp, ?_⟩
    unfold from_field
    rw [hc]
    exact from_attrs_cross_conflict attrs sp hA hT hsp
  · intro d hok
    cases hc : collect_attrs field with
    | error e =>
      unfold from_field at hok
      rw [hc] at hok
      exact FfResult.noConfusion hok
    | ok attrs =>
      unfold from_field at hok
      rw [hc] at hok
      have hinv := from_attrs_ok_inv attrs d hok
      refine ⟨?_, attrs, rfl, hinv.1, hinv.2.1⟩
      cases hfp : firstParseError field with
      | none => rfl
      | some e =>
        have hpe := collect_attrs_parse_error field e hfp
        rw [hpe] at hc
        exact Except.noConfusion hc

theorem claim_C7_witness :
    from_field ⟨[⟨"br", Except.error (CompileError.Syn ⟨⟨0, 0, 4⟩, "bad input"⟩)⟩,
        ⟨"br", Except.ok [⟨FlaKind.Count, Payload.expr 1, ⟨0, 5, 6⟩⟩,
          ⟨FlaKind.Count, Payload.expr 2, ⟨0, 7, 8⟩⟩]⟩]⟩
      = FfResult.err (CompileError.Syn ⟨⟨0, 0, 4⟩, "bad input"⟩) :=
  (claim_C7 ⟨[⟨"br", Except.error (CompileError.Syn ⟨⟨0, 0, 4⟩, "bad input"⟩)⟩,
      ⟨"br", Except.ok [⟨FlaKind.Count, Payload.expr 1, ⟨0, 5, 6⟩⟩,
        ⟨FlaKind.Count, Payload.expr 2, ⟨0, 7, 8⟩⟩]⟩]⟩).1
    (CompileError.Syn ⟨⟨0, 0, 4⟩, "bad input"⟩) rfl

/-- C9: whenever `from_field` succeeds, the descriptor's `args` is the
tuple variant exactly when an `args_tuple` occurrence was given (then with
its single occurrence's payload); otherwise it is the list variant holding
the single `args` payload when one was given and the empty list when none
was; the assertion sequence of the descriptor is always empty. -/
theorem claim_C9 (field : Field) (d : FieldLevelAttrs)
    (h : from_field field = FfResult.ok d) :
    d.assert = [] ∧
    ∃ attrs, collect_attrs field = Except.ok attrs ∧
      ((∃ a, get_fla_type attrs FlaKind.ArgsTuple = [a] ∧
          d.args = PassedArgs.Tuple a.payload) ∨
       (get_fla_type attrs FlaKind.ArgsTuple = [] ∧
         ((∃ a, get_fla_type attrs FlaKind.Args = [a] ∧
             d.args = PassedArgs.List a.payload) ∨
          (get_fla_type attrs FlaKind.Args = [] ∧
            d.args = PassedArgs.List (Payload.list []))))) := by
  cases hc : collect_attrs field with
  | error e =>
    unfold from_field at h
    rw [hc] at h
    exact FfResult.noConfusion h
  | ok attrs =>
    unfold from_field at h
    rw [hc] at h
    obtain ⟨-, hlen, -, -, -, -, -, -, -, -, -, hassert, hargs⟩ :=
      from_attrs_ok_inv attrs d h
    refine ⟨hassert, attrs, rfl, ?_⟩
    have hlenT := hlen FlaKind.ArgsTuple (by decide)
    have hlenA := hlen FlaKind.Args (by decide)
    cases hT : get_fla_type attrs FlaKind.ArgsTuple with
    | cons a t =>
      cases t with
      | nil =>
        left
        refine ⟨a, rfl, ?_⟩
        rw [hargs, hT]
        rfl
      | cons b t2 =>
        rw [hT] at hlenT
        simp at hlenT
    | nil =>
      right
      refine ⟨rfl, ?_⟩
      cases hA : get_fla_type attrs FlaKind.Args with
      | cons a t =>
        cases t with
        | nil =>
          left
          refine ⟨a, rfl, ?_⟩
          rw [hargs, hT, hA]
          rfl
        | cons b t2 =>
          rw [hA] at hlenA
          simp at hlenA
      | nil =>
        right
        refine ⟨rfl, ?_⟩
        rw [hargs, hT, hA]
        rfl

theorem claim_C9_witness :
    ({ emptyDescr with args := PassedArgs.Tuple (Payload.expr 3) } :
        FieldLevelAttrs).assert = [] ∧
    ∃ attrs, collect_attrs (mkField FlaKind.ArgsTuple [(Payload.expr 3, ⟨0, 0, 1⟩)])
        = Except.ok attrs ∧
      ((∃ a, get_fla_type attrs FlaKind.ArgsTuple = [a] ∧
          ({ emptyDescr with args := PassedArgs.Tuple (Payload.expr 3) } :
            FieldLevelAttrs).args = PassedArgs.Tuple a.payload) ∨
       (get_fla_type attrs FlaKind.ArgsTuple = [] ∧
         ((∃ a, get_fla_type attrs FlaKind.Args = [a] ∧
             ({ emptyDescr with args := PassedArgs.Tuple (Payload.expr 3) } :
               FieldLevelAttrs).args = PassedArgs.List a.payload) ∨
          (get_fla_type attrs FlaKind.Args = [] ∧
            ({ emptyDescr with args := PassedArgs.Tuple (Payload.expr 3) } :
              FieldLevelAttrs).args = PassedArgs.List (Payload.list []))))) :=
  claim_C9 (mkField FlaKind.ArgsTuple [(Payload.expr 3, ⟨0, 0, 1⟩)])
    { emptyDescr with args := PassedArgs.Tuple (Payload.expr 3) } rfl

end BinreadDerive
